import Mathlib

/-!
Verification development for the sonic-ai-crypto-manager repository.

Part 1 embeds the portfolio ledger of `src/backtester.py`
(`Backtester.__init__`, `Backtester.execute_trade`, `Backtester.sell_collateral`,
`Backtester.parse_action`) over exact rationals.

Part 2 embeds the volatility / position-sizing pipeline of
`src/agents/risk_manager.py` (`risk_management_agent`) and the Sharpe-ratio
computation of `Backtester.analyze_performance` over the reals, with an
explicit model of the IEEE special values (NaN, plus/minus infinity) that the
source's floating-point arithmetic produces on degenerate inputs.
-/

/-- The trading action carried by a decision.  The source compares the action
against the string literals for long, short and hold; `other` stands for any
further value (including Python `None` coming out of `dict.get`). -/
inductive TradeAction where
  | long
  | short
  | hold
  | other
deriving DecidableEq, Repr

/-- The mutable portfolio dictionary of `Backtester.__init__`: cash, the two
collateral legs, the last entry price (`price_collateral`), and the constant
risk / leverage parameters. -/
structure Portfolio where
  cash : ℚ
  collateral_long : ℚ
  collateral_short : ℚ
  price_collateral : ℚ
  risk : ℚ
  leverage : ℚ
deriving DecidableEq, Repr

/-- Round half to even of a rational, as Python's builtin `round` ties-to-even
(the source rounds exact values such as `100/10`; ties do not arise in any
statement below). -/
def rhe (x : ℚ) : ℤ :=
  let f := ⌊x⌋
  let d := x - f
  if d < 1/2 then f
  else if 1/2 < d then f + 1
  else if Even f then f else f + 1

/-- `round(x, 2)` of the source: round half to even at two decimal places. -/
def round2 (x : ℚ) : ℚ := (rhe (100 * x) : ℚ) / 100

/-- `Backtester.execute_trade(action, quantity, current_price)`:
for a long (resp. short) action with positive quantity and sufficient cash it
adds `round(quantity / current_price, 2)` to the matching collateral leg,
deducts the quantity from cash and records the entry price; in every case it
returns the requested quantity. -/
def execute_trade (p : Portfolio) (action : TradeAction) (quantity current_price : ℚ) :
    Portfolio × ℚ :=
  if action = TradeAction.long ∧ 0 < quantity then
    if quantity ≤ p.cash then
      ({ p with
          collateral_long := p.collateral_long + round2 (quantity / current_price),
          cash := p.cash - quantity,
          price_collateral := current_price }, quantity)
    else (p, quantity)
  else if action = TradeAction.short ∧ 0 < quantity then
    if quantity ≤ p.cash then
      ({ p with
          collateral_short := p.collateral_short + round2 (quantity / current_price),
          cash := p.cash - quantity,
          price_collateral := current_price }, quantity)
    else (p, quantity)
  else (p, quantity)

/-- `Backtester.sell_collateral(current_price)`: two sequential checks; a
nonzero short leg realises `collateral_short * (2*price_collateral - price)`
and is zeroed, then a nonzero long leg realises `collateral_long * price` and
is zeroed. -/
def sell_collateral (p : Portfolio) (current_price : ℚ) : Portfolio :=
  let p1 :=
    if p.collateral_short ≠ 0 then
      { p with
          cash := p.cash + p.collateral_short * (2 * p.price_collateral - current_price),
          collateral_short := 0 }
    else p
  if p1.collateral_long ≠ 0 then
    { p1 with
        cash := p1.cash + p1.collateral_long * current_price,
        collateral_long := 0 }
  else p1

/-- A raw call on the ledger: either a liquidation (`sell_collateral`) or a
trade (`execute_trade`), each at a market price. -/
inductive LOp where
  | liq (price : ℚ)
  | trade (action : TradeAction) (quantity price : ℚ)
deriving DecidableEq, Repr

/-- Run a sequence of raw ledger calls from a starting portfolio. -/
def runOps (p : Portfolio) (ops : List LOp) : Portfolio :=
  ops.foldl
    (fun st op =>
      match op with
      | LOp.liq pr => sell_collateral st pr
      | LOp.trade a q pr => (execute_trade st a q pr).1)
    p

/-- One simulated day of `Backtester.run_backtest`: liquidate at the day's
price, then execute the day's decision at the same price. -/
def stepDay (p : Portfolio) (d : TradeAction × ℚ × ℚ) : Portfolio :=
  (execute_trade (sell_collateral p d.2.2) d.1 d.2.1 d.2.2).1

/-- Run the engine's per-day liquidate-then-open sequence over a list of
daily decisions `(action, quantity, price)`. -/
def runDays (p : Portfolio) (ds : List (TradeAction × ℚ × ℚ)) : Portfolio :=
  ds.foldl stepDay p

/-- What the decision source may hand to `Backtester.parse_action`: either a
value with no usable `get` accessor (a bare string, `None`, ...), on which
attribute access raises, or a record whose two `get` lookups yield the stored
action and quantity fields (`none` models an absent key / Python `None`). -/
inductive AgentOutput where
  | nonRecord
  | record (action : Option TradeAction) (quantity : Option ℚ)
deriving DecidableEq

/-- `Backtester.parse_action`: field access on a record returns whatever the
two `get` calls yield; only the exception path (no `get` accessor at all)
substitutes the hold/0 default. -/
def parse_action (o : AgentOutput) : Option TradeAction × Option ℚ :=
  match o with
  | AgentOutput.nonRecord => (some TradeAction.hold, some 0)
  | AgentOutput.record a q => (a, q)

/-- A well-formed decision record: both the action and the quantity field are
present. -/
def WellFormedOutput : AgentOutput → Prop
  | AgentOutput.record (some _) (some _) => True
  | _ => False

instance : DecidablePred WellFormedOutput := by
  intro o
  unfold WellFormedOutput
  match o with
  | AgentOutput.nonRecord => exact inferInstanceAs (Decidable False)
  | AgentOutput.record (some _) (some _) => exact inferInstanceAs (Decidable True)
  | AgentOutput.record none _ => exact inferInstanceAs (Decidable False)
  | AgentOutput.record (some _) none => exact inferInstanceAs (Decidable False)

example : (execute_trade ⟨100, 0, 0, 0, 1/20, 10⟩ TradeAction.long 10 5).1.collateral_long = 2 := by
  norm_num [execute_trade, round2, rhe]

example : (sell_collateral ⟨0, 2, 0, 5, 1/20, 10⟩ 7).cash = 14 := by
  norm_num [sell_collateral]

section RiskEngine

open Classical in
/-- `pct_change` of a close series: per-bar simple return
`close_t / close_{t-1} - 1` (the leading entry with no prior close is
dropped here and modelled separately as a NaN row in `Frame`). -/
noncomputable def pctChange (xs : List ℝ) : List ℝ :=
  List.zipWith (fun a b => b / a - 1) xs xs.tail

/-- Mean of a series, as pandas `.mean()` on a series without NaN. -/
noncomputable def listMean (xs : List ℝ) : ℝ := xs.sum / xs.length

/-- Sample variance with one delta degree of freedom, as pandas `.std()`
squared. -/
noncomputable def sampleVar (xs : List ℝ) : ℝ :=
  ((xs.map fun x => (x - listMean xs) ^ 2).sum) / ((xs.length : ℝ) - 1)

/-- Sample standard deviation, as pandas `.std()` (ddof = 1). -/
noncomputable def sampleStd (xs : List ℝ) : ℝ := Real.sqrt (sampleVar xs)

/-- All full sliding windows of size `k` over a list, oldest first. -/
def windows (k : ℕ) (xs : List α) : List (List α) :=
  (List.range (xs.length + 1 - k)).map fun i => (xs.drop i).take k

/-- `prices_df["returns"].rolling(window=24).std()` restricted to the bars
where the window is full. -/
noncomputable def rollingStdVals (xs : List ℝ) : List ℝ :=
  (windows 24 xs).map sampleStd

/-- The scalar `volatility` of `risk_management_agent`: the mean of the
rolling 24-bar standard deviation of the per-bar simple returns over all
full windows. -/
noncomputable def volatility (prices : List ℝ) : ℝ :=
  listMean (rollingStdVals (pctChange prices))

/-- IEEE-style value model for the floating-point results the source can
produce: NaN, the two infinities, or a finite value (modelled exactly as a
real number). -/
inductive FV where
  | nan
  | inf
  | ninf
  | fin (x : ℝ)

open Classical in
/-- Division of a finite float by a float value: division by zero follows
IEEE (`x/0 = ±inf` for `x ≠ 0`, `0/0 = NaN`), NaN propagates. -/
noncomputable def fdivRF (x : ℝ) : FV → FV
  | FV.nan => FV.nan
  | FV.inf => FV.fin 0
  | FV.ninf => FV.fin 0
  | FV.fin y =>
      if y = 0 then
        if x = 0 then FV.nan else if 0 < x then FV.inf else FV.ninf
      else FV.fin (x / y)

/-- The comparison `v > c` between a float value and a finite float: false
whenever `v` is NaN. -/
def fgtR (v : FV) (c : ℝ) : Prop :=
  match v with
  | FV.nan => False
  | FV.inf => True
  | FV.ninf => False
  | FV.fin x => c < x

open Classical in
noncomputable instance (v : FV) (c : ℝ) : Decidable (fgtR v c) := by
  unfold fgtR
  match v with
  | FV.nan => exact inferInstanceAs (Decidable False)
  | FV.inf => exact inferInstanceAs (Decidable True)
  | FV.ninf => exact inferInstanceAs (Decidable False)
  | FV.fin x => exact inferInstanceAs (Decidable (c < x))

open Classical in
/-- Division of a float value by a finite float, IEEE rules. -/
noncomputable def fdivFR : FV → ℝ → FV
  | FV.nan, _ => FV.nan
  | FV.inf, r => if 0 ≤ r then FV.inf else FV.ninf
  | FV.ninf, r => if 0 ≤ r then FV.ninf else FV.inf
  | FV.fin x, r =>
      if r = 0 then
        if x = 0 then FV.nan else if 0 < x then FV.inf else FV.ninf
      else FV.fin (x / r)

open Classical in
/-- Division of two float values, IEEE rules on the cases that arise here. -/
noncomputable def fdivFF : FV → FV → FV
  | FV.nan, _ => FV.nan
  | _, FV.nan => FV.nan
  | FV.inf, v => fdivRF 1 v
  | FV.ninf, v => fdivRF (-1) v
  | FV.fin _, FV.inf => FV.fin 0
  | FV.fin _, FV.ninf => FV.fin 0
  | FV.fin x, FV.fin y =>
      if y = 0 then
        if x = 0 then FV.nan else if 0 < x then FV.inf else FV.ninf
      else FV.fin (x / y)

open Classical in
/-- Multiplication of a float value by a finite positive-or-negative float. -/
noncomputable def fmulR : FV → ℝ → FV
  | FV.nan, _ => FV.nan
  | FV.inf, r => if 0 < r then FV.inf else if r < 0 then FV.ninf else FV.nan
  | FV.ninf, r => if 0 < r then FV.ninf else if r < 0 then FV.inf else FV.nan
  | FV.fin x, r => FV.fin (x * r)

open Classical in
/-- The `volatility` float of `risk_management_agent`: the mean over the
rolling column is NaN exactly when no window is full (fewer than 25 raw
bars), and is otherwise the finite mean of the window standard deviations. -/
noncomputable def volF (prices : List ℝ) : FV :=
  if windows 24 (pctChange prices) = [] then FV.nan
  else FV.fin (volatility prices)

open Classical in
/-- Steps 2 and 5 of `risk_management_agent` in float semantics:
`max_loss_cash = cash * max_loss`, `max_position_size = max_loss_cash /
volatility`, capped at `cash` when the comparison `> cash` holds, then
`max_position_margin = max_position_size / leverage`. -/
noncomputable def maxPositionMarginF (prices : List ℝ) (cash risk_fraction leverage : ℝ) : FV :=
  let max_loss_cash := cash * risk_fraction
  let s0 := fdivRF max_loss_cash (volF prices)
  let max_position_size := if fgtR s0 cash then FV.fin cash else s0
  fdivFR max_position_size leverage

end RiskEngine

section Performance

open Classical in
/-- pandas `.mean()` of a series of daily returns: NaN on an empty series. -/
noncomputable def meanF (xs : List ℝ) : FV :=
  if xs = [] then FV.nan else FV.fin (listMean xs)

open Classical in
/-- pandas `.std()` (ddof = 1) of a series: NaN on fewer than two samples. -/
noncomputable def stdF (xs : List ℝ) : FV :=
  if xs.length ≤ 1 then FV.nan else FV.fin (sampleStd xs)

/-- The Sharpe-ratio computation of `Backtester.analyze_performance`:
daily returns are the percent changes of consecutive portfolio values, and
`sharpe_ratio = mean(daily_returns) / std(daily_returns) * sqrt(252)` in
float semantics. -/
noncomputable def sharpeF (values : List ℝ) : FV :=
  let daily := pctChange values
  fmulR (fdivFF (meanF daily) (stdF daily)) (Real.sqrt 252)

end Performance

section FrameMutation

/-- The observable state of the caller's `prices_df` object around the call
to `risk_management_agent`: the close column, and the optional `returns` and
`volatility_24` columns the call may stores; `none` entries inside a column
are NaN cells. -/
structure Frame where
  close : List ℝ
  returnsCol : Option (List (Option ℝ))
  volCol : Option (List (Option ℝ))

/-- The `returns` column as assigned by
`prices_df["returns"] = prices_df["close"].pct_change()`: a NaN in the first
row, then the simple returns, aligned with the close rows. -/
noncomputable def pctChangeCol (xs : List ℝ) : List (Option ℝ) :=
  match xs with
  | [] => []
  | _ :: _ => none :: (pctChange xs).map some

/-- Conjoin a row mask with the non-NaN mask of one optional column. -/
def maskAnd (acc : List Bool) (col : Option (List (Option ℝ))) : List Bool :=
  match col with
  | none => acc
  | some xs => List.zipWith (fun b o => b && o.isSome) acc xs

/-- Keep the rows of a column selected by the mask. -/
def filterMask (mask : List Bool) (xs : List α) : List α :=
  ((xs.zip mask).filterMap fun p => if p.2 then some p.1 else none)

/-- `prices_df.dropna(inplace=True)`: remove every row holding a NaN in any
present column (the close column, being a plain series of reals, has none). -/
def dropnaF (f : Frame) : Frame :=
  let mask := maskAnd (maskAnd (f.close.map fun _ => true) f.returnsCol) f.volCol
  { close := filterMask mask f.close,
    returnsCol := f.returnsCol.map (filterMask mask),
    volCol := f.volCol.map (filterMask mask) }

/-- The `volatility_24` column: `rolling(window=24).std()` of the returns
column, NaN until the window is full. -/
noncomputable def rollingStdCol (rets : List ℝ) : List (Option ℝ) :=
  (List.range rets.length).map fun i =>
    if i + 1 < 24 then none else some (sampleStd ((rets.drop (i + 1 - 24)).take 24))

/-- The three statements of `risk_management_agent` that write to the
caller's frame: assign the `returns` column, `dropna` in place, assign the
`volatility_24` column.  Returns the frame object's state after the call. -/
noncomputable def riskMutateFrame (f : Frame) : Frame :=
  let f1 : Frame := { f with returnsCol := some (pctChangeCol f.close) }
  let f2 := dropnaF f1
  let rets := (f2.returnsCol.getD []).reduceOption
  { f2 with volCol := some (rollingStdCol rets) }

end FrameMutation

section LedgerTheorems

lemma short_ne_long : TradeAction.short ≠ TradeAction.long := by
  decide

lemma sell_collateral_zeroes (p : Portfolio) (pr : ℚ) :
    (sell_collateral p pr).collateral_long = 0 ∧ (sell_collateral p pr).collateral_short = 0 := by
  unfold sell_collateral
  by_cases hs : p.collateral_short ≠ 0 <;> by_cases hl : p.collateral_long ≠ 0 <;>
    simp [hs, hl] <;> tauto

lemma stepDay_one_sided (p : Portfolio) (d : TradeAction × ℚ × ℚ) :
    (stepDay p d).collateral_long = 0 ∨ (stepDay p d).collateral_short = 0 := by
  unfold stepDay
  obtain ⟨hl, hs⟩ := sell_collateral_zeroes p d.2.2
  unfold execute_trade
  split_ifs <;> simp [hl, hs]

/-- C2 counterexample: two `open` calls with no liquidation in between — a
long for 10 at price 5, then a short for 10 at price 5, from a fresh ledger
with 100 cash — leave both `collateral_long` and `collateral_short` at 2,
so the claimed invariant over arbitrary call sequences is false. -/
theorem C2_counterexample_both_legs_open :
    0 < (runOps ⟨100, 0, 0, 0, 1/20, 10⟩
          [LOp.trade TradeAction.long 10 5, LOp.trade TradeAction.short 10 5]).collateral_long ∧
    0 < (runOps ⟨100, 0, 0, 0, 1/20, 10⟩
          [LOp.trade TradeAction.long 10 5, LOp.trade TradeAction.short 10 5]).collateral_short := by
  norm_num [runOps, execute_trade, round2, rhe, short_ne_long]

/-- C2 (amended): under the engine's actual sequencing — every day first
liquidates and then opens at that day's price — a ledger started with zero
collateral never holds both a positive long and a positive short leg. -/
theorem C2_single_position_invariant (init : Portfolio)
    (hl : init.collateral_long = 0) (_hs : init.collateral_short = 0)
    (ds : List (TradeAction × ℚ × ℚ)) :
    ¬ (0 < (runDays init ds).collateral_long ∧ 0 < (runDays init ds).collateral_short) := by
  have key : ∀ (ds : List (TradeAction × ℚ × ℚ)) (p : Portfolio),
      p.collateral_long = 0 ∨ p.collateral_short = 0 →
      (runDays p ds).collateral_long = 0 ∨ (runDays p ds).collateral_short = 0 := by
    intro ds
    induction ds with
    | nil => intro p hp; exact hp
    | cons d tl ih =>
        intro p _
        exact ih (stepDay p d) (stepDay_one_sided p d)
  rcases key ds init (Or.inl hl) with h | h
  · rintro ⟨h1, _⟩
    rw [h] at h1
    exact lt_irrefl 0 h1
  · rintro ⟨_, h2⟩
    rw [h] at h2
    exact lt_irrefl 0 h2

/-- C2 witness: one engine day (liquidate then open long 10 at 5) from a
fresh ledger leaves at most one collateral leg positive. -/
theorem C2_single_position_invariant_witness :
    ¬ (0 < (runDays ⟨100, 0, 0, 0, 1/20, 10⟩ [(TradeAction.long, 10, 5)]).collateral_long ∧
       0 < (runDays ⟨100, 0, 0, 0, 1/20, 10⟩ [(TradeAction.long, 10, 5)]).collateral_short) :=
  C2_single_position_invariant ⟨100, 0, 0, 0, 1/20, 10⟩ rfl rfl [(TradeAction.long, 10, 5)]

/-- C3 counterexample: on a ledger holding both legs (reachable by two raw
`open` calls, see C2), liquidation at price 4 from entry 10 adds the short
payoff 16 *and* the long payoff 4 to cash, not exactly the short payoff the
claim states for every state with a short position open. -/
theorem C3_counterexample_both_legs :
    (sell_collateral ⟨0, 1, 1, 10, 1/20, 10⟩ 4).cash ≠ 0 + 1 * (2 * 10 - 4) := by
  norm_num [sell_collateral]

/-- C3 (amended): liquidation behaves exactly as claimed on every state with
at most one leg open: a sole short leg realises
`collateral_short * (2*price_collateral - price)` and is zeroed, a sole long
leg realises `collateral_long * price` and is zeroed, and with no open leg
the call is a no-op at any price. -/
theorem C3_sell_collateral_cases (p : Portfolio) (pr : ℚ) :
    (p.collateral_short ≠ 0 → p.collateral_long = 0 →
      sell_collateral p pr =
        { p with cash := p.cash + p.collateral_short * (2 * p.price_collateral - pr),
                 collateral_short := 0 }) ∧
    (p.collateral_long ≠ 0 → p.collateral_short = 0 →
      sell_collateral p pr =
        { p with cash := p.cash + p.collateral_long * pr, collateral_long := 0 }) ∧
    (p.collateral_short = 0 → p.collateral_long = 0 → sell_collateral p pr = p) := by
  refine ⟨fun hs hl => ?_, fun hl hs => ?_, fun hs hl => ?_⟩ <;>
    simp [sell_collateral, hs, hl]

/-- C3 witness: the three liquidation cases at concrete ledgers — a sole
short leg of 2 from entry 5 at price 7 yields cash 6, a sole long leg of 2
at price 7 yields cash 14, and a flat ledger is unchanged. -/
theorem C3_sell_collateral_cases_witness :
    (sell_collateral ⟨0, 0, 2, 5, 1/20, 10⟩ 7).cash = 0 + 2 * (2 * 5 - 7) ∧
    (sell_collateral ⟨0, 2, 0, 5, 1/20, 10⟩ 7).cash = 0 + 2 * 7 ∧
    sell_collateral ⟨33, 0, 0, 5, 1/20, 10⟩ 7 = ⟨33, 0, 0, 5, 1/20, 10⟩ := by
  refine ⟨?_, ?_, ?_⟩
  · rw [(C3_sell_collateral_cases ⟨0, 0, 2, 5, 1/20, 10⟩ 7).1 (by norm_num) rfl]
  · rw [(C3_sell_collateral_cases ⟨0, 2, 0, 5, 1/20, 10⟩ 7).2.1 (by norm_num) rfl]
  · exact (C3_sell_collateral_cases ⟨33, 0, 0, 5, 1/20, 10⟩ 7).2.2 rfl rfl

/-- C5 counterexample: opening a long for quantity 1 at price 3 credits
`round(1/3, 2) = 0.33` of collateral, not the exact `1/3` the claim states. -/
theorem C5_counterexample_rounding :
    (execute_trade ⟨5, 0, 0, 0, 1/20, 10⟩ TradeAction.long 1 3).1.collateral_long ≠ 0 + 1/3 := by
  norm_num [execute_trade, round2, rhe]

/-- C5 (amended): a precondition-satisfying open (positive quantity, cash at
least the quantity) adds `round(quantity/price, 2)` — the collateral rounded
to two decimals, not the exact quotient — to the matching leg, deducts the
quantity from cash, records the entry price, and returns the quantity. -/
theorem C5_execute_trade_updates (p : Portfolio) (q pr : ℚ)
    (hq : 0 < q) (hcash : q ≤ p.cash) :
    execute_trade p TradeAction.long q pr =
      ({ p with collateral_long := p.collateral_long + round2 (q / pr),
                cash := p.cash - q, price_collateral := pr }, q) ∧
    execute_trade p TradeAction.short q pr =
      ({ p with collateral_short := p.collateral_short + round2 (q / pr),
                cash := p.cash - q, price_collateral := pr }, q) := by
  constructor <;> simp [execute_trade, hq, hcash]

/-- C5 witness: opening long 10 at price 5 on a fresh 100-cash ledger leaves
cash 90 and collateral 2; short is symmetric. -/
theorem C5_execute_trade_updates_witness :
    (execute_trade ⟨100, 0, 0, 0, 1/20, 10⟩ TradeAction.long 10 5).1.cash = 100 - 10 ∧
    (execute_trade ⟨100, 0, 0, 0, 1/20, 10⟩ TradeAction.short 10 5).1.collateral_short
      = 0 + round2 (10 / 5) := by
  have h := C5_execute_trade_updates ⟨100, 0, 0, 0, 1/20, 10⟩ 10 5 (by norm_num) (by norm_num)
  constructor
  · rw [h.1]
  · rw [h.2]

/-- C6: a hold action, a non-positive quantity, or insufficient cash leaves
every field of the ledger unchanged, and the call still returns the
requested quantity. -/
theorem C6_execute_trade_skip (p : Portfolio) (a : TradeAction) (q pr : ℚ)
    (h : a = TradeAction.hold ∨ q ≤ 0 ∨ p.cash < q) :
    execute_trade p a q pr = (p, q) := by
  rcases h with h | h | h
  · subst h; simp [execute_trade]
  · have hq : ¬ (0 < q) := not_lt.2 h
    simp [execute_trade, hq]
  · have hc : ¬ (q ≤ p.cash) := not_le.2 h
    simp [execute_trade, hc]

/-- C6 witness: a hold of quantity 5, a long of quantity 0 and a long beyond
the cash balance all leave the concrete ledger unchanged and return the
requested quantity. -/
theorem C6_execute_trade_skip_witness :
    execute_trade ⟨100, 0, 0, 0, 1/20, 10⟩ TradeAction.hold 5 2
      = (⟨100, 0, 0, 0, 1/20, 10⟩, 5) ∧
    execute_trade ⟨100, 0, 0, 0, 1/20, 10⟩ TradeAction.long 0 2
      = (⟨100, 0, 0, 0, 1/20, 10⟩, 0) ∧
    execute_trade ⟨100, 0, 0, 0, 1/20, 10⟩ TradeAction.long 200 2
      = (⟨100, 0, 0, 0, 1/20, 10⟩, 200) :=
  ⟨C6_execute_trade_skip _ _ _ _ (Or.inl rfl),
   C6_execute_trade_skip _ _ _ _ (Or.inr (Or.inl (by norm_num))),
   C6_execute_trade_skip _ _ _ _ (Or.inr (Or.inr (by norm_num)))⟩

/-- C7 counterexample: a record lacking both fields is not a well-formed
decision, yet `parse_action` yields `(None, None)`, not the claimed
substitute `(hold, 0)`. -/
theorem C7_counterexample_empty_record :
    ¬ WellFormedOutput (AgentOutput.record none none) ∧
    parse_action (AgentOutput.record none none) ≠ (some TradeAction.hold, some 0) := by
  constructor
  · exact fun h => h
  · simp [parse_action]

/-- C7 (amended): the hold/0 substitute is produced exactly when the output
has no field accessor at all (the exception path); a record output — even one
missing its fields — is passed through unchanged, so a malformed record
parses to its raw (possibly absent) fields rather than to the substitute. -/
theorem C7_parse_action_paths :
    parse_action AgentOutput.nonRecord = (some TradeAction.hold, some 0) ∧
    ∀ (a : Option TradeAction) (q : Option ℚ),
      parse_action (AgentOutput.record a q) = (a, q) :=
  ⟨rfl, fun _ _ => rfl⟩

/-- C10: cash non-negativity is not preserved: from a fresh ledger with 100
cash, opening a short for the whole balance at price 10 and then liquidating
at price 25 (above twice the entry) drives cash to -50; no guard prevents
this. -/
theorem C10_negative_cash_reachable :
    (runOps ⟨100, 0, 0, 0, 1/20, 10⟩
      [LOp.trade TradeAction.short 100 10, LOp.liq 25]).cash < 0 := by
  norm_num [runOps, execute_trade, sell_collateral, round2, rhe, short_ne_long]

end LedgerTheorems

section RiskTheorems

lemma windows_length (k : ℕ) (xs : List α) : (windows k xs).length = xs.length + 1 - k := by
  simp [windows]

lemma pctChange_length (xs : List ℝ) : (pctChange xs).length = xs.length - 1 := by
  simp [pctChange]

lemma volF_fin (prices : List ℝ) (h : 25 ≤ prices.length) :
    volF prices = FV.fin (volatility prices) := by
  unfold volF
  rw [if_neg]
  rw [← List.length_eq_zero, windows_length, pctChange_length]
  omega

lemma windows_self (xs : List α) (k : ℕ) (h : xs.length = k) : windows k xs = [xs] := by
  subst h
  unfold windows
  rw [show xs.length + 1 - xs.length = 1 from by omega,
    show List.range 1 = [0] from rfl]
  simp

lemma listMean_singleton (x : ℝ) : listMean [x] = x := by
  simp [listMean]

/-- C1: with at least 25 bars and positive computed volatility (and positive
leverage, the data-model invariant), the assessed `max_position_margin` is
exactly `min(cash, cash * risk_fraction / volatility) / leverage`. -/
theorem C1_max_position_margin (prices : List ℝ) (cash risk_fraction leverage : ℝ)
    (hbars : 25 ≤ prices.length) (hvol : 0 < volatility prices) (hlev : 0 < leverage) :
    maxPositionMarginF prices cash risk_fraction leverage =
      FV.fin (min cash (cash * risk_fraction / volatility prices) / leverage) := by
  have hdiv : fdivRF (cash * risk_fraction) (FV.fin (volatility prices))
      = FV.fin (cash * risk_fraction / volatility prices) := by
    simp [fdivRF, hvol.ne']
  simp only [maxPositionMarginF]
  rw [volF_fin prices hbars, hdiv]
  by_cases hc : cash < cash * risk_fraction / volatility prices
  · rw [if_pos (show fgtR (FV.fin (cash * risk_fraction / volatility prices)) cash from hc),
      min_eq_left hc.le]
    simp [fdivFR, hlev.ne']
  · rw [if_neg (show ¬ fgtR (FV.fin (cash * risk_fraction / volatility prices)) cash from hc),
      min_eq_right (not_lt.1 hc)]
    simp [fdivFR, hlev.ne']

/-- A 25-bar close series: 24 flat bars then a doubling bar, giving one full
volatility window with positive standard deviation. -/
def pricesSpike : List ℝ :=
  [1, 1, 1, 1, 1, 1, 1, 1, 1, 1, 1, 1, 1, 1, 1, 1, 1, 1, 1, 1, 1, 1, 1, 1, 2]

lemma pctChange_pricesSpike :
    pctChange pricesSpike =
      [0, 0, 0, 0, 0, 0, 0, 0, 0, 0, 0, 0, 0, 0, 0, 0, 0, 0, 0, 0, 0, 0, 0, 1] := by
  norm_num [pricesSpike, pctChange]

lemma volatility_pricesSpike : volatility pricesSpike = Real.sqrt (1/24) := by
  unfold volatility rollingStdVals
  rw [pctChange_pricesSpike, windows_self _ 24 (by norm_num), List.map_singleton,
    listMean_singleton, sampleStd]
  rw [show sampleVar
      ([0, 0, 0, 0, 0, 0, 0, 0, 0, 0, 0, 0, 0, 0, 0, 0, 0, 0, 0, 0, 0, 0, 0, 1] : List ℝ)
      = 1/24 from by norm_num [sampleVar, listMean]]

lemma volatility_pricesSpike_pos : 0 < volatility pricesSpike := by
  rw [volatility_pricesSpike]
  exact Real.sqrt_pos.2 (by norm_num)

/-- C1 witness: the formula evaluated on the concrete 25-bar spike series
with cash 100, risk fraction 1/20 and leverage 10. -/
theorem C1_max_position_margin_witness :
    maxPositionMarginF pricesSpike 100 (1/20) 10 =
      FV.fin (min 100 (100 * (1/20) / volatility pricesSpike) / 10) :=
  C1_max_position_margin pricesSpike 100 (1/20) 10 (by norm_num [pricesSpike])
    volatility_pricesSpike_pos (by norm_num)

/-- C4 counterexample: on a series of exactly 24 bars the source raises
nothing — the rolling mean is NaN and the call returns a message whose
`max_position_margin` is NaN, so `assess` does return instead of failing
with `InsufficientHistory`. -/
theorem C4_counterexample_24_bars :
    maxPositionMarginF (List.replicate 24 (1:ℝ)) 100 (1/20) 10 = FV.nan := by
  have hw : windows 24 (pctChange (List.replicate 24 (1:ℝ))) = [] := by
    rw [← List.length_eq_zero, windows_length, pctChange_length]
    simp
  have hvolF : volF (List.replicate 24 (1:ℝ)) = FV.nan := by
    unfold volF
    rw [if_pos hw]
  simp only [maxPositionMarginF]
  rw [hvolF]
  simp [fdivRF, fgtR, fdivFR]

/-- C4 (amended): the source has no error path.  With fewer than 25 bars the
volatility mean is NaN and the returned margin is NaN; with at least 25
bars, volatility exactly 0, a positive loss budget `cash * risk_fraction`
and positive leverage, the division overflows to +infinity, the cash cap
replaces it, and the returned margin is the finite `cash / leverage`. -/
theorem C4_degenerate_margins :
    (∀ (prices : List ℝ) (cash risk_fraction leverage : ℝ), prices.length < 25 →
        maxPositionMarginF prices cash risk_fraction leverage = FV.nan) ∧
    (∀ (prices : List ℝ) (cash risk_fraction leverage : ℝ), 25 ≤ prices.length →
        volatility prices = 0 → 0 < cash * risk_fraction → 0 < leverage →
        maxPositionMarginF prices cash risk_fraction leverage = FV.fin (cash / leverage)) := by
  constructor
  · intro prices cash rf lev h
    have hw : windows 24 (pctChange prices) = [] := by
      rw [← List.length_eq_zero, windows_length, pctChange_length]
      omega
    have hvolF : volF prices = FV.nan := by
      unfold volF
      rw [if_pos hw]
    simp only [maxPositionMarginF]
    rw [hvolF]
    simp [fdivRF, fgtR, fdivFR]
  · intro prices cash rf lev hb hv hm hl
    have h0 : fdivRF (cash * rf) (FV.fin 0) = FV.inf := by
      simp [fdivRF, hm.ne', hm]
    simp only [maxPositionMarginF]
    rw [volF_fin prices hb, hv, h0, if_pos (show fgtR FV.inf cash from True.intro)]
    simp [fdivFR, hl.ne']

/-- A flat 25-bar close series, whose 24 returns are all zero and whose
computed volatility is exactly zero. -/
def pricesFlat : List ℝ :=
  [1, 1, 1, 1, 1, 1, 1, 1, 1, 1, 1, 1, 1, 1, 1, 1, 1, 1, 1, 1, 1, 1, 1, 1, 1]

lemma volatility_pricesFlat : volatility pricesFlat = 0 := by
  have h1 : pctChange pricesFlat =
      [0, 0, 0, 0, 0, 0, 0, 0, 0, 0, 0, 0, 0, 0, 0, 0, 0, 0, 0, 0, 0, 0, 0, 0] := by
    norm_num [pricesFlat, pctChange]
  unfold volatility rollingStdVals
  rw [h1, windows_self _ 24 (by norm_num), List.map_singleton, listMean_singleton, sampleStd]
  rw [show sampleVar
      ([0, 0, 0, 0, 0, 0, 0, 0, 0, 0, 0, 0, 0, 0, 0, 0, 0, 0, 0, 0, 0, 0, 0, 0] : List ℝ)
      = 0 from by norm_num [sampleVar, listMean]]
  exact Real.sqrt_zero

/-- C4 witness: a 10-bar series yields a NaN margin, and a flat 25-bar
series (volatility zero) yields the capped margin `100 / 10`. -/
theorem C4_degenerate_margins_witness :
    maxPositionMarginF (List.replicate 10 (1:ℝ)) 100 (1/20) 10 = FV.nan ∧
    maxPositionMarginF pricesFlat 100 (1/20) 10 = FV.fin (100 / 10) := by
  constructor
  · exact C4_degenerate_margins.1 _ 100 (1/20) 10 (by norm_num)
  · exact C4_degenerate_margins.2 pricesFlat 100 (1/20) 10 (by norm_num [pricesFlat])
      volatility_pricesFlat (by norm_num) (by norm_num)

end RiskTheorems

section PerformanceTheorems

/-- C9 counterexample: on the flat value history `[100, 100, 100]` the daily
returns are `[0, 0]` with standard deviation 0, and `analyze_performance`
does not fail with `InsufficientSamples` — the Sharpe ratio it computes and
prints is the NaN of `0/0`. -/
theorem C9_counterexample_zero_std : sharpeF [100, 100, 100] = FV.nan := by
  have h1 : pctChange ([100, 100, 100] : List ℝ) = [0, 0] := by
    norm_num [pctChange]
  have h2 : sampleStd ([0, 0] : List ℝ) = 0 := by
    rw [sampleStd, show sampleVar ([0, 0] : List ℝ) = 0 from by norm_num [sampleVar, listMean]]
    exact Real.sqrt_zero
  unfold sharpeF
  rw [h1]
  simp [meanF, stdF, h2, listMean, fdivFF, fmulR]

/-- C9 (amended): the Sharpe computation never raises.  With at least two
daily returns and nonzero standard deviation it equals
`mean / std * sqrt(252)` over the percent changes of consecutive portfolio
values; with fewer than two daily returns the standard deviation is NaN and
the computed Sharpe ratio is NaN rather than a failure (a zero standard
deviation likewise yields NaN or an infinity, never an error). -/
theorem C9_sharpe_ratio :
    (∀ values : List ℝ, (pctChange values).length ≤ 1 → sharpeF values = FV.nan) ∧
    (∀ values : List ℝ, 2 ≤ (pctChange values).length →
        sampleStd (pctChange values) ≠ 0 →
        sharpeF values =
          FV.fin (listMean (pctChange values) / sampleStd (pctChange values)
            * Real.sqrt 252)) := by
  constructor
  · intro values h
    have hs : stdF (pctChange values) = FV.nan := by
      simp [stdF, h]
    simp only [sharpeF]
    rw [hs]
    by_cases hn : pctChange values = []
    · simp [meanF, hn, fdivFF, fmulR]
    · simp [meanF, hn, fdivFF, fmulR]
  · intro values h2 hstd
    have hne : pctChange values ≠ [] := by
      intro h
      rw [h] at h2
      simp at h2
    have hlen : ¬ ((pctChange values).length ≤ 1) := by omega
    unfold sharpeF
    simp [meanF, stdF, hne, hlen, fdivFF, hstd, fmulR]

/-- C9 witness: a two-value history gives one daily return and a NaN Sharpe
ratio; the history `[1, 2, 1]` gives returns `[1, -1/2]` with positive
standard deviation and the finite Sharpe value of the formula. -/
theorem C9_sharpe_ratio_witness :
    sharpeF [(100:ℝ), 110] = FV.nan ∧
    sharpeF [(1:ℝ), 2, 1] =
      FV.fin (listMean (pctChange [(1:ℝ), 2, 1]) / sampleStd (pctChange [(1:ℝ), 2, 1])
        * Real.sqrt 252) := by
  constructor
  · exact C9_sharpe_ratio.1 [(100:ℝ), 110] (by norm_num [pctChange])
  · refine C9_sharpe_ratio.2 [(1:ℝ), 2, 1] (by norm_num [pctChange]) ?_
    have h1 : pctChange ([1, 2, 1] : List ℝ) = [1, -(1/2)] := by
      norm_num [pctChange]
    rw [h1, sampleStd,
      show sampleVar ([1, -(1/2)] : List ℝ) = 9/8 from by norm_num [sampleVar, listMean]]
    exact Real.sqrt_ne_zero'.2 (by norm_num)

end PerformanceTheorems

section FrameTheorems

lemma zipWith_true_some (cs : List α) :
    ∀ (l : List β), cs.length = l.length →
      List.zipWith (fun b o => b && o.isSome) (cs.map fun _ => true) (l.map some)
        = cs.map fun _ => true := by
  induction cs with
  | nil => intro l _; simp
  | cons x t ih =>
      intro l h
      cases l with
      | nil => simp at h
      | cons y u =>
          simp only [List.map_cons, List.zipWith_cons_cons, Option.isSome_some, Bool.and_true]
          rw [ih u (by simpa using h)]

lemma filterMask_true_cons (m : List Bool) (x : α) (xs : List α) :
    filterMask (true :: m) (x :: xs) = x :: filterMask m xs := by
  simp [filterMask]

lemma filterMask_true (xs : List α) : filterMask (xs.map fun _ => true) xs = xs := by
  induction xs with
  | nil => rfl
  | cons x t ih =>
      rw [List.map_cons, filterMask_true_cons, ih]

lemma filterMask_false_cons (m : List Bool) (x : α) (xs : List α) :
    filterMask (false :: m) (x :: xs) = filterMask m xs := by
  simp [filterMask]

/-- C8 counterexample: `risk_management_agent` is not side-effect free — on
the two-bar frame with closes `[1, 2]` and no derived columns, the call
drops the first row in place (and stores two new columns), so the caller's
frame differs from what was passed in. -/
theorem C8_counterexample_frame_changed :
    riskMutateFrame { close := [1, 2], returnsCol := none, volCol := none } ≠
      { close := [1, 2], returnsCol := none, volCol := none } := by
  intro h
  have h1 := congrArg Frame.close h
  norm_num [riskMutateFrame, dropnaF, pctChangeCol, pctChange, maskAnd, filterMask,
    List.filterMap_cons] at h1

/-- C8 (amended): far from leaving the series identical, the call mutates
the caller's frame: on any input frame carrying only a close column, the
close series afterwards is the original with its first bar dropped (the
in-place `dropna` after the returns assignment), so whenever the series is
nonempty the frame after the call differs from the frame before. -/
theorem C8_assess_mutates_frame (f : Frame)
    (_hr : f.returnsCol = none) (hv : f.volCol = none) :
    (riskMutateFrame f).close = f.close.drop 1 ∧
    (f.close ≠ [] → riskMutateFrame f ≠ f) := by
  have hclose : (riskMutateFrame f).close = f.close.drop 1 := by
    unfold riskMutateFrame dropnaF
    simp only [hv, maskAnd]
    cases hc : f.close with
    | nil => simp [pctChangeCol, filterMask]
    | cons c cs =>
        have hlen : cs.length = (pctChange (c :: cs)).length := by
          rw [pctChange_length]
          simp
        simp only [pctChangeCol, List.map_cons, List.zipWith_cons_cons,
          Option.isSome_none, Bool.and_false]
        rw [zipWith_true_some cs ((pctChange (c :: cs))) hlen, filterMask_false_cons,
          filterMask_true]
        simp
  refine ⟨hclose, fun hne heq => ?_⟩
  have h1 := congrArg Frame.close heq
  rw [hclose] at h1
  cases hc : f.close with
  | nil => exact hne hc
  | cons c cs =>
      rw [hc] at h1
      simp only [List.drop_one, List.tail_cons] at h1
      exact List.cons_ne_self c cs h1.symm

/-- C8 witness: on the concrete three-bar frame with closes `[1, 2, 3]` the
call leaves the close series `[2, 3]` and the frame is visibly changed. -/
theorem C8_assess_mutates_frame_witness :
    (riskMutateFrame { close := [(1:ℝ), 2, 3], returnsCol := none, volCol := none }).close
      = [(1:ℝ), 2, 3].drop 1 ∧
    riskMutateFrame { close := [(1:ℝ), 2, 3], returnsCol := none, volCol := none } ≠
      { close := [(1:ℝ), 2, 3], returnsCol := none, volCol := none } := by
  have h := C8_assess_mutates_frame
    { close := [(1:ℝ), 2, 3], returnsCol := none, volCol := none } rfl rfl
  exact ⟨h.1, h.2 (by simp)⟩

end FrameTheorems
